import Mathlib

set_option maxRecDepth 20000

namespace Ihale

/-!
Shallow embedding of the requirement-extraction-and-compliance-evaluation
engine of `src/app.py` (İhaleBind).  Text is modelled as `List Char`; the
Python functions `normalize_tr`, `extract_rules_from_text`, the clause
evaluators, `aggregate_overall` and `build_zeyil_text` are translated
one-to-one.  Regular-expression searches are modelled by explicit
leftmost-match scanners specialised to the handful of fixed patterns the
source uses.
-/

-- ==========================================================================
-- normalize_tr (src/app.py lines 40-49)
-- ==========================================================================

/-- Model of the whitespace class matched by the pattern in
`re.sub(r"\s+", " ", text)` (ASCII whitespace). -/
def isSpaceC (c : Char) : Bool :=
  c == ' ' || c == '\t' || c == '\n' || c == '\r' || c == '\x0b' || c == '\x0c'

/-- Generic association-list lookup, modelling Python `dict.get`. -/
def assocG {κ α : Type} [DecidableEq κ] : List (κ × α) → κ → Option α
  | [], _ => none
  | (k2, v) :: r, k => if k2 = k then some v else assocG r k

/-- Lowercasing table for `str.lower()`, restricted to the alphabet the
program manipulates: ASCII letters plus the Turkish uppercase letters.
Python maps `İ` (U+0130) to `i` followed by a combining dot above. -/
def lowerMap : List (Char × List Char) :=
  [('A', ['a']), ('B', ['b']), ('C', ['c']), ('D', ['d']), ('E', ['e']),
   ('F', ['f']), ('G', ['g']), ('H', ['h']), ('I', ['i']), ('J', ['j']),
   ('K', ['k']), ('L', ['l']), ('M', ['m']), ('N', ['n']), ('O', ['o']),
   ('P', ['p']), ('Q', ['q']), ('R', ['r']), ('S', ['s']), ('T', ['t']),
   ('U', ['u']), ('V', ['v']), ('W', ['w']), ('X', ['x']), ('Y', ['y']),
   ('Z', ['z']),
   ('Ç', ['ç']), ('Ğ', ['ğ']), ('İ', ['i', '̇']), ('Ö', ['ö']),
   ('Ş', ['ş']), ('Ü', ['ü'])]

/-- The six chained `.replace` calls of `normalize_tr`; each is a
single-character substitution. -/
def replMap : List (Char × Char) :=
  [('ı', 'i'), ('ş', 's'), ('ğ', 'g'), ('ü', 'u'), ('ö', 'o'), ('ç', 'c')]

/-- Per-character model of `str.lower()`.  Characters below 'A' and
between 'Z' and DEL are never uppercase, so they map to themselves. -/
def lowerChar (c : Char) : List Char :=
  if c.toNat ≤ 64 ∨ (90 < c.toNat ∧ c.toNat ≤ 127) then [c]
  else
    match assocG lowerMap c with
    | some v => v
    | none => [c]

/-- Per-character model of the `.replace` chain (all printable ASCII is
untouched by it). -/
def replChar (c : Char) : Char :=
  if c.toNat ≤ 127 then c
  else
    match assocG replMap c with
    | some v => v
    | none => c

def lowerL : List Char → List Char
  | [] => []
  | c :: cs => lowerChar c ++ lowerL cs

def replL : List Char → List Char
  | [] => []
  | c :: cs => replChar c :: replL cs

/-- `re.sub(r"\s+", " ", s)`: every maximal run of whitespace becomes one
space.  The scanner drops all but the last character of a run and emits a
single space in its place. -/
def collapse : List Char → List Char
  | [] => []
  | c :: cs =>
    if isSpaceC c then
      match cs with
      | [] => [' ']
      | d :: ds => if isSpaceC d then collapse (d :: ds) else ' ' :: collapse (d :: ds)
    else c :: collapse cs

/-- `normalize_tr` on character lists: lowercase, transliterate the six
Turkish diacritics, collapse whitespace. -/
def normalizeL (s : List Char) : List Char := collapse (replL (lowerL s))

/-- `normalize_tr` (src/app.py lines 40-49). -/
def normalize_tr (s : String) : String := String.mk (normalizeL s.data)

-- ==========================================================================
-- substring / scanning primitives
-- ==========================================================================

/-- Strip a literal off the front of the text: `some rest` iff the first
list is a prefix, as a regex literal match does. -/
def dropLit : List Char → List Char → Option (List Char)
  | [], s => some s
  | _ :: _, [] => none
  | p :: ps, c :: cs => if p = c then dropLit ps cs else none

def isLitAt (p s : List Char) : Bool := (dropLit p s).isSome

/-- Python `pattern in text` (substring containment). -/
def containsL (p : List Char) : List Char → Bool
  | [] => (dropLit p []).isSome
  | c :: cs => (dropLit p (c :: cs)).isSome || containsL p cs

/-- Python `text.find(pattern)`: index of the leftmost occurrence. -/
def findSub (p : List Char) : List Char → Option Nat
  | [] => if (dropLit p ([] : List Char)).isSome then some 0 else none
  | c :: cs =>
    if (dropLit p (c :: cs)).isSome then some 0
    else (findSub p cs).map (· + 1)

def containsAny (ps : List String) (t : List Char) : Bool :=
  ps.any fun p => containsL p.data t

/-- Greedy `\s*`. -/
def dropSpaces (s : List Char) : List Char := s.dropWhile fun c => isSpaceC c

/-- Greedy `\d+` capture: leading digit run and its numeric value. -/
def takeDigits : List Char → List Char × List Char
  | [] => ([], [])
  | c :: cs =>
    if c.isDigit then
      let p := takeDigits cs
      (c :: p.1, p.2)
    else ([], c :: cs)

def digitsVal (ds : List Char) : Nat :=
  ds.foldl (fun a c => 10 * a + (c.toNat - 48)) 0

def digits1 (s : List Char) : Option (Nat × List Char) :=
  match takeDigits s with
  | ([], _) => none
  | (ds, r) => some (digitsVal ds, r)

-- ==========================================================================
-- the numeric regex patterns of extract_rules_from_text (lines 110-135)
-- ==========================================================================

/-- One alternative of `(olcum|test|reaksiyon)` followed by `\s*` and a
trailing literal. -/
def altThen (w : String) (tail : String) (s : List Char) : Bool :=
  match dropLit w.data s with
  | some r => isLitAt tail.data (dropSpaces r)
  | none => false

/-- Tail `(olcum|test|reaksiyon)?\s*kanal` of the first channel pattern. -/
def kanalTailB (s : List Char) : Bool :=
  altThen "olcum" "kanal" s || altThen "test" "kanal" s ||
  altThen "reaksiyon" "kanal" s || isLitAt "kanal".data (dropSpaces s)

/-- Tail `(adet\s*)?(olcum|test|reaksiyon)?\s*kanal`. -/
def kanalTailA (s : List Char) : Bool :=
  (match dropLit "adet".data s with
   | some r => kanalTailB (dropSpaces r)
   | none => false) || kanalTailB s

/-- `en az\s*(\d+)\s*(adet\s*)?(olcum|test|reaksiyon)?\s*kanal`, matched at
the start of `s`; returns group 1. -/
def kanalPat1At (s : List Char) : Option Nat :=
  match dropLit "en az".data s with
  | none => none
  | some s1 =>
    match digits1 (dropSpaces s1) with
    | none => none
    | some (n, s2) => if kanalTailA (dropSpaces s2) then some n else none

/-- Mandatory alternative tail `(olcum|test|reaksiyon)\s*kanali`. -/
def kanalTailB2 (s : List Char) : Bool :=
  altThen "olcum" "kanali" s || altThen "test" "kanali" s ||
  altThen "reaksiyon" "kanali" s

/-- `(\d+)\s*(adet\s*)?(olcum|test|reaksiyon)\s*kanali` at the start of `s`. -/
def kanalPat2At (s : List Char) : Option Nat :=
  match digits1 s with
  | none => none
  | some (n, s1) =>
    let s2 := dropSpaces s1
    if ((match dropLit "adet".data s2 with
         | some r => kanalTailB2 (dropSpaces r)
         | none => false) || kanalTailB2 s2)
    then some n else none

/-- `en az\s*(\d+)\s*kanal` at the start of `s`. -/
def kanalPat3At (s : List Char) : Option Nat :=
  match dropLit "en az".data s with
  | none => none
  | some s1 =>
    match digits1 (dropSpaces s1) with
    | none => none
    | some (n, s2) => if isLitAt "kanal".data (dropSpaces s2) then some n else none

/-- `en az\s*(\d+)\s*prob` at the start of `s`. -/
def probPat1At (s : List Char) : Option Nat :=
  match dropLit "en az".data s with
  | none => none
  | some s1 =>
    match digits1 (dropSpaces s1) with
    | none => none
    | some (n, s2) => if isLitAt "prob".data (dropSpaces s2) then some n else none

/-- `(\d+)\s*problu` at the start of `s`. -/
def probPat2At (s : List Char) : Option Nat :=
  match digits1 s with
  | none => none
  | some (n, s1) => if isLitAt "problu".data (dropSpaces s1) then some n else none

/-- `re.search`: try the pattern at every position from the left, return
the first match. -/
def searchPat (f : List Char → Option Nat) : List Char → Option Nat
  | [] => f []
  | c :: cs =>
    match f (c :: cs) with
    | some n => some n
    | none => searchPat f cs

/-- All matches of the pattern, one per starting position (used to state
properties about "all matched values"). -/
def allPat (f : List Char → Option Nat) : List Char → List Nat
  | [] => (f []).toList
  | c :: cs => (f (c :: cs)).toList ++ allPat f cs

/-- Every value some channel pattern matches somewhere in the text. -/
def allKanalMatches (t : List Char) : List Nat :=
  allPat kanalPat1At t ++ allPat kanalPat2At t ++ allPat kanalPat3At t

/-- Every value some probe pattern matches somewhere in the text. -/
def allProbMatches (t : List Char) : List Nat :=
  allPat probPat1At t ++ allPat probPat2At t

-- ==========================================================================
-- data model
-- ==========================================================================

/-- The four clause verdict states: Compliant, PartiallyCompliant
("Zeyil"), NonCompliant, Unknown. -/
inductive Durum
  | uygun
  | zeyil
  | uygunDegil
  | bilgiYok
deriving DecidableEq

/-- One element of the `results` list: a clause verdict dict. -/
structure Sonuc where
  madde : String
  durum : Durum
  aciklama : String
  zeyilFlag : Bool
deriving DecidableEq

/-- `faktor_durumu` values `"zorunlu"` / `"opsiyonel_dis_lab"`. -/
inductive FaktorDurumu
  | zorunlu
  | opsiyonel_dis_lab
deriving DecidableEq

/-- A `testler` entry of a device record: `True`/`False` or a descriptive
string such as `"manyetik"`. -/
inductive TVal
  | b (v : Bool)
  | s (v : String)
deriving DecidableEq

/-- The RequirementRecord produced by `extract_rules_from_text`; a missing
dict key is `none`. -/
structure Rules where
  kanal_min : Option Nat
  prob_min : Option Nat
  barkod : Option (List (String × Bool))
  okuma_yontemi : Option (List String)
  istenen_testler : Option (List (String × Bool))
  faktor_durumu : Option FaktorDurumu
deriving DecidableEq

/-- The `koagulasyon` sub-record of a device catalog entry, with the fields
the evaluators read.  `none` models an absent or null JSON field. -/
structure DeviceKoag where
  kanal_toplam : Option Int
  prob_sayisi : Option Int
  barkod_numune : Bool
  barkod_reaktif : Bool
  testler : List (String × TVal)
deriving DecidableEq

structure BarkodCap where
  numune : Bool
  reaktif : Bool
deriving DecidableEq

/-- `device_get_barkod` (lines 61-66): absent sub-keys default to false. -/
def device_get_barkod (d : DeviceKoag) : BarkodCap :=
  ⟨d.barkod_numune, d.barkod_reaktif⟩

/-- The Faktör/Faktor spelling tolerance of `device_has_test`. -/
def altName : String → Option String
  | "Faktör" => some "Faktor"
  | "Faktor" => some "Faktör"
  | _ => none

/-- `device_has_test` (lines 68-85). -/
def device_has_test (device_koag : DeviceKoag) (test_name : String) : Bool :=
  let val : Option TVal :=
    match assocG device_koag.testler test_name with
    | some v => some v
    | none =>
      match altName test_name with
      | some a => assocG device_koag.testler a
      | none => none
  match val with
  | some (.b v) => v
  | some (.s _) => true
  | none => false

-- ==========================================================================
-- extract_test_block (lines 91-100) and rule extraction (lines 106-181)
-- ==========================================================================

def headersTB : List String :=
  ["istenen test", "istenilen test", "calisilacak test", "calisilacak tetkik",
   "test listesi", "testler", "koagulasyon test", "calisilacak parametre"]

/-- Try the headers in order; the first one found claims a 1600-character
window starting at its position. -/
def etbGo (t : List Char) : List String → List Char
  | [] => []
  | h :: hs =>
    match findSub h.data t with
    | some i => (t.drop i).take 1600
    | none => etbGo t hs

def extract_test_block (t : List Char) : List Char := etbGo t headersTB

/-- `scan = test_block if test_block else t`. -/
def scanRegion (t : List Char) : List Char :=
  let b := extract_test_block t
  if b = [] then t else b

-- keyword probes, named per category (lines 137-176)

def numuneCond (t : List Char) : Bool :=
  containsAny ["numune barkod", "hasta barkod", "sample barcode", "tup barkod",
               "primer tup barkod"] t

def reaktifCond (t : List Char) : Bool :=
  containsAny ["reaktif barkod", "kit barkod", "reagent barcode",
               "barkod okuyucu ile kit okutulur"] t

def genelCond (t : List Char) : Bool := containsL "barkod".data t

def manyetikCond (t : List Char) : Bool := containsL "manyetik".data t

def mekanikCond (t : List Char) : Bool :=
  containsAny ["mekanik", "clot", "clotting", "clot detection", "pihti",
               "pihti olusumu"] t || containsL "koagulometri".data t

def ptCond (scan : List Char) : Bool :=
  containsL " pt ".data (' ' :: (scan ++ [' '])) || containsL "protrombin".data scan

def apttCond (scan : List Char) : Bool := containsL "aptt".data scan

def fibCond (scan : List Char) : Bool := containsL "fibrinojen".data scan

def ddimerCond (scan : List Char) : Bool :=
  containsAny ["d-dimer", "d dimer", "ddimer"] scan

def faktorCond (scan : List Char) : Bool :=
  containsAny ["faktor", "faktör", "factor"] scan

def disLabCond (scan : List Char) : Bool :=
  containsAny ["dis lab", "dis laboratuvar", "referans lab", "gonderilebilir",
               "hizmet alimi"] scan

/-- Channel minimum: the first match of each of the three patterns, then
`max` over those (lines 110-122). -/
def extractKanalMin (t : List Char) : Option Nat :=
  match ([searchPat kanalPat1At t, searchPat kanalPat2At t,
          searchPat kanalPat3At t]).filterMap id with
  | [] => none
  | v :: vs => some (vs.foldl Nat.max v)

/-- Probe minimum (lines 124-135). -/
def extractProbMin (t : List Char) : Option Nat :=
  match ([searchPat probPat1At t, searchPat probPat2At t]).filterMap id with
  | [] => none
  | v :: vs => some (vs.foldl Nat.max v)

/-- Barcode requirement (lines 137-147): specific sub-keys if any specific
keyword appears, else a bare "barkod" mention is recorded as a `numune`
requirement. -/
def extractBarkod (t : List Char) : Option (List (String × Bool)) :=
  let bq := (if numuneCond t then [("numune", true)] else []) ++
            (if reaktifCond t then [("reaktif", true)] else [])
  if bq = [] then
    (if genelCond t then some [("numune", true)] else none)
  else some bq

/-- Reading method tags (lines 149-158); `sorted(list(methods))` puts
"manyetik" before "mekanik_clot". -/
def extractOkuma (t : List Char) : Option (List String) :=
  let ms := (if manyetikCond t then ["manyetik"] else []) ++
            (if mekanikCond t then ["mekanik_clot"] else [])
  if ms = [] then none else some ms

/-- The requested-tests dict (lines 164-179), in insertion order. -/
def testListOf (scan : List Char) : List (String × Bool) :=
  (if ptCond scan then [("PT", true)] else []) ++
  (if apttCond scan then [("APTT", true)] else []) ++
  (if fibCond scan then [("Fibrinojen", true)] else []) ++
  (if ddimerCond scan then [("D-Dimer", true)] else []) ++
  (if faktorCond scan then [("Faktör", true)] else [])

def extractTestList (scan : List Char) : Option (List (String × Bool)) :=
  let tests := testListOf scan
  if tests = [] then none else some tests

/-- `faktor_durumu` is set only when a factor keyword was seen; the
external-lab probe runs over the same scan region (lines 173-176). -/
def extractFaktorDurumu (scan : List Char) : Option FaktorDurumu :=
  if faktorCond scan then
    some (if disLabCond scan then FaktorDurumu.opsiyonel_dis_lab
          else FaktorDurumu.zorunlu)
  else none

/-- `extract_rules_from_text` (lines 106-181). -/
def extract_rules_from_text (raw : List Char) : Rules :=
  let t := normalizeL raw
  { kanal_min := extractKanalMin t
    prob_min := extractProbMin t
    barkod := extractBarkod t
    okuma_yontemi := extractOkuma t
    istenen_testler := extractTestList (scanRegion t)
    faktor_durumu := extractFaktorDurumu (scanRegion t) }

-- ==========================================================================
-- evaluation engines (lines 187-287)
-- ==========================================================================

/-- `evaluate_barkod` (lines 187-196): sample first and fail-fast, reagent
lack is only a Zeyil. -/
def evaluate_barkod (requirement : List (String × Bool)) (device_koag : DeviceKoag) : Sonuc :=
  let db := device_get_barkod device_koag
  if (assocG requirement "numune").getD false && !db.numune then
    ⟨"Barkod (Numune)", .uygunDegil, "Numune barkod okuyucu yok.", false⟩
  else if (assocG requirement "reaktif").getD false && !db.reaktif then
    ⟨"Barkod (Reaktif)", .zeyil, "Reaktif barkod okuyucu yok / eşdeğer yöntem gerekir.", true⟩
  else
    ⟨"Barkod", .uygun, "Barkod gereksinimleri karşılanıyor.", false⟩

/-- `evaluate_kanal` (lines 198-206).  `if not req` is true for a missing
key and for the value 0; an absent or null device count reads as 0. -/
def evaluate_kanal (rules : Rules) (device_koag : DeviceKoag) : Sonuc :=
  match rules.kanal_min with
  | none => ⟨"Kanal Sayısı", .bilgiYok, "Şartnamede kanal sayısı yakalanamadı.", false⟩
  | some req =>
    if req = 0 then
      ⟨"Kanal Sayısı", .bilgiYok, "Şartnamede kanal sayısı yakalanamadı.", false⟩
    else
      let dev : Int := device_koag.kanal_toplam.getD 0
      if (req : Int) ≤ dev then
        ⟨"Kanal Sayısı", .uygun,
         "Şartname en az " ++ toString req ++ " kanal, cihaz " ++ toString dev ++ " kanal.", false⟩
      else
        ⟨"Kanal Sayısı", .uygunDegil,
         "Şartname en az " ++ toString req ++ " kanal, cihaz " ++ toString dev ++ " kanal.", false⟩

/-- `evaluate_prob` (lines 208-216). -/
def evaluate_prob (rules : Rules) (device_koag : DeviceKoag) : Sonuc :=
  match rules.prob_min with
  | none => ⟨"Prob Sayısı", .bilgiYok, "Şartnamede prob sayısı yakalanamadı.", false⟩
  | some req =>
    if req = 0 then
      ⟨"Prob Sayısı", .bilgiYok, "Şartnamede prob sayısı yakalanamadı.", false⟩
    else
      let dev : Int := device_koag.prob_sayisi.getD 0
      if (req : Int) ≤ dev then
        ⟨"Prob Sayısı", .uygun,
         "Şartname en az " ++ toString req ++ " prob, cihaz " ++ toString dev ++ " prob.", false⟩
      else
        ⟨"Prob Sayısı", .uygunDegil,
         "Şartname en az " ++ toString req ++ " prob, cihaz " ++ toString dev ++ " prob.", false⟩

/-- The device methods derived from string-valued `testler` entries
(lines 225-232), queried only for "manyetik". -/
def deviceMethodsMany (d : DeviceKoag) : Bool :=
  d.testler.any fun p =>
    match p.2 with
    | .s v => containsL "manyetik".data (lowerL v.data)
    | .b _ => false

/-- Ditto for "optik" (collected by the source but never consulted). -/
def deviceMethodsOptik (d : DeviceKoag) : Bool :=
  d.testler.any fun p =>
    match p.2 with
    | .s v => containsL "optik".data (lowerL v.data)
    | .b _ => false

/-- `evaluate_okuma_yontemi` (lines 218-247). -/
def evaluate_okuma_yontemi (rules : Rules) (device_koag : DeviceKoag) : Sonuc :=
  match rules.okuma_yontemi with
  | none => ⟨"Okuma Yöntemi", .bilgiYok, "Şartnamede okuma yöntemi yakalanamadı.", false⟩
  | some req_methods =>
    if req_methods = [] then
      ⟨"Okuma Yöntemi", .bilgiYok, "Şartnamede okuma yöntemi yakalanamadı.", false⟩
    else
      let hasMany := deviceMethodsMany device_koag
      if "manyetik" ∈ req_methods ∧ hasMany = false then
        ⟨"Okuma Yöntemi", .uygunDegil,
         "Şartname manyetik okuma istiyor, cihazda yakalanamadı.", false⟩
      else if "mekanik_clot" ∈ req_methods then
        if hasMany then
          ⟨"Okuma Yöntemi", .zeyil,
           "Şartname clot/mekanik ifade ediyor. Cihaz manyetik prensiple pıhtı algılaması yapıyor: zeyil/açıklama önerilir.", true⟩
        else
          ⟨"Okuma Yöntemi", .uygunDegil,
           "Şartname clot/mekanik istiyor, cihazda uygun yöntem yakalanamadı.", false⟩
      else
        ⟨"Okuma Yöntemi", .uygun, "Okuma yöntemi gereksinimi karşılanıyor.", false⟩

/-- The two fixed Faktör verdicts of `evaluate_testler` (lines 262-266). -/
def faktorSonuc (fd : Option FaktorDurumu) : Sonuc :=
  match fd with
  | some .opsiyonel_dis_lab =>
    ⟨"Faktör Testleri", .zeyil,
     "Faktör testleri cihazda yok; dış lab/referans lab ile karşılanması için zeyil/açıklama gerekir.", true⟩
  | _ =>
    ⟨"Faktör Testleri", .uygunDegil,
     "Faktör testleri şartnamede zorunlu ve cihazda yok.", false⟩

def joinComma : List String → String
  | [] => ""
  | [s] => s
  | s :: r => s ++ ", " ++ joinComma r

/-- The loop body of `evaluate_testler` (lines 254-274), with the running
`missing` list made explicit. -/
def testlerGo (rules : Rules) (device_koag : DeviceKoag) :
    List (String × Bool) → List String → Sonuc
  | [], missing =>
    if missing = [] then
      ⟨"Testler", .uygun, "İstenen testler karşılanıyor (V1 yakalama).", false⟩
    else
      ⟨"Testler", .uygunDegil,
       "Şartnamede istenen testlerden eksik: " ++ joinComma missing, false⟩
  | (test_name, needed) :: rest, missing =>
    if needed = false then testlerGo rules device_koag rest missing
    else if test_name = "Faktör" ∨ test_name = "Faktor" then
      if (device_has_test device_koag "Faktor" || device_has_test device_koag "Faktör") = false then
        faktorSonuc rules.faktor_durumu
      else testlerGo rules device_koag rest missing
    else if device_has_test device_koag test_name = false then
      testlerGo rules device_koag rest (missing ++ [test_name])
    else testlerGo rules device_koag rest missing

/-- `evaluate_testler` (lines 249-274). -/
def evaluate_testler (rules : Rules) (device_koag : DeviceKoag) : Sonuc :=
  match rules.istenen_testler with
  | none => ⟨"Testler", .bilgiYok, "Şartnamede istenen testler yakalanamadı.", false⟩
  | some req_tests =>
    if req_tests = [] then
      ⟨"Testler", .bilgiYok, "Şartnamede istenen testler yakalanamadı.", false⟩
    else testlerGo rules device_koag req_tests []

/-- The overall verdict states. -/
inductive ODurum
  | uygun
  | zeyilIleUygun
  | uygunDegil
  | incelemeGerekli
deriving DecidableEq

structure Overall where
  durum : ODurum
  etiket : String
deriving DecidableEq

/-- `aggregate_overall` (lines 276-287). -/
def aggregate_overall (results : List Sonuc) : Overall :=
  if ∃ r ∈ results, r.durum = Durum.uygunDegil then
    ⟨.uygunDegil, "🔴 Uygun Değil"⟩
  else if ∃ r ∈ results, r.durum = Durum.zeyil then
    ⟨.zeyilIleUygun, "🟡 Zeyil ile Uygun"⟩
  else if ∀ r ∈ results, r.durum = Durum.uygun ∨ r.durum = Durum.bilgiYok then
    ⟨.uygun, "🟢 Uygun"⟩
  else
    ⟨.incelemeGerekli, "⚪ İnceleme Gerekli"⟩

-- ==========================================================================
-- build_zeyil_text (lines 293-326) and the zeyil collection (lines 492-496)
-- ==========================================================================

def containsS (p s : String) : Bool := containsL p.data s.data

/-- `build_zeyil_text`: template selected by clause category, first match
wins, generic fallback last. -/
def build_zeyil_text (item : Sonuc) (_rules : Rules) (_device_name : String)
    (_device_koag : DeviceKoag) : String :=
  let madde := item.madde
  let aciklama := item.aciklama
  if containsS "Barkod (Reaktif)" madde ||
     (containsS "Barkod" madde && containsS "Reaktif" aciklama) then
    "Zeyil Önerisi (Reaktif Barkod):\n" ++
    "Cihazda reaktif/kit tanımlama işlemleri, cihazın dahili/harici barkod okuyucusu ile ve/veya " ++
    "kullanıcının manuel reaktif tanımlaması yapabilmesine olanak sağlayacak şekilde gerçekleştirilebilir. " ++
    "Reaktiflerin cihazda güvenli şekilde tanımlanması ve izlenebilirliği sağlanacaktır."
  else if containsS "Okuma Yöntemi" madde then
    "Zeyil Önerisi (Okuma Yöntemi):\n" ++
    "Koagülasyon testleri pıhtı oluşumu (clot detection) prensibine dayalı olarak yürütülmekte olup; " ++
    "pıhtı algılama, cihazın manyetik/mekanik algılama prensipleri ile gerçekleştirilebilir. " ++
    "Cihaz, ilgili testlerde pıhtı oluşumunu güvenilir şekilde tespit ederek sonuç üretir."
  else if containsS "Faktör" madde then
    "Zeyil Önerisi (Faktör Testleri):\n" ++
    "Faktör testleri, laboratuvar sorumlusunun onayı doğrultusunda referans/dış laboratuvar hizmeti ile " ++
    "karşılanabilir. Bu kapsamda sonuçların sürekliliği ve hasta hizmetinin aksamaması için gerekli süreç firma tarafından yönetilecektir."
  else
    "Zeyil Önerisi (" ++ madde ++ "):\n" ++ aciklama ++
    "\nİlgili gereksinim, eşdeğer yöntem/uygulama ile karşılanabilecektir."

/-- The barkod entry of `run_full_evaluation`'s results (lines 438-441). -/
def barkod_sonuc (rules : Rules) (device_koag : DeviceKoag) : Sonuc :=
  match rules.barkod with
  | some b => evaluate_barkod b device_koag
  | none => ⟨"Barkod", .bilgiYok, "Şartnamede barkod gereksinimi yakalanamadı.", false⟩

/-- The per-clause results list of `run_full_evaluation` (lines 436-450). -/
def run_results (rules : Rules) (device_koag : DeviceKoag) : List Sonuc :=
  [barkod_sonuc rules device_koag,
   evaluate_kanal rules device_koag,
   evaluate_prob rules device_koag,
   evaluate_okuma_yontemi rules device_koag,
   evaluate_testler rules device_koag]

/-- The zeyil text collection loop (lines 492-496): a text is produced for
exactly the results whose status is "Zeyil". -/
def zeyil_texts (results : List Sonuc) (rules : Rules) (device_label : String)
    (device_koag : DeviceKoag) : List String :=
  (results.filter fun r => decide (r.durum = Durum.zeyil)).map
    fun r => build_zeyil_text r rules device_label device_koag

-- ==========================================================================
-- general lemmas
-- ==========================================================================

theorem assocG_mem {κ α : Type} [DecidableEq κ] :
    ∀ (l : List (κ × α)) (k : κ) (v : α), assocG l k = some v → (k, v) ∈ l := by
  intro l
  induction l with
  | nil => intro k v h; simp [assocG] at h
  | cons p r ih =>
    intro k v h
    obtain ⟨k2, v2⟩ := p
    unfold assocG at h
    by_cases hk : k2 = k
    · rw [if_pos hk] at h
      injection h with h
      subst hk; subst h
      exact List.mem_cons_self _ _
    · rw [if_neg hk] at h
      exact List.mem_cons_of_mem _ (ih k v h)

theorem replL_eq_map : ∀ l : List Char, replL l = l.map replChar := by
  intro l
  induction l with
  | nil => rfl
  | cons c cs ih => simp [replL, ih]

theorem mem_lowerL (e : Char) :
    ∀ l : List Char, e ∈ lowerL l ↔ ∃ c ∈ l, e ∈ lowerChar c := by
  intro l
  induction l with
  | nil => simp [lowerL]
  | cons c cs ih => simp [lowerL, ih]

theorem lowerL_fixed : ∀ l : List Char, (∀ e ∈ l, lowerChar e = [e]) → lowerL l = l := by
  intro l
  induction l with
  | nil => intro _; rfl
  | cons c cs ih =>
    intro h
    have hc := h c (List.mem_cons_self c cs)
    simp [lowerL, hc, ih fun e he => h e (List.mem_cons_of_mem _ he)]

theorem replL_fixed : ∀ l : List Char, (∀ e ∈ l, replChar e = e) → replL l = l := by
  intro l
  induction l with
  | nil => intro _; rfl
  | cons c cs ih =>
    intro h
    have hc := h c (List.mem_cons_self c cs)
    simp [replL, hc, ih fun e he => h e (List.mem_cons_of_mem _ he)]

/-- Every character produced by the lowercase table, after transliteration,
is fixed by both stages (checked over the whole finite table). -/
theorem lower_out_stable :
    ∀ p ∈ lowerMap, ∀ d ∈ p.2,
      lowerChar (replChar d) = [replChar d] ∧ replChar (replChar d) = replChar d := by
  decide

/-- Every output of the transliteration table is fixed by both stages. -/
theorem repl_out_stable :
    ∀ p ∈ replMap, lowerChar p.2 = [p.2] ∧ replChar p.2 = p.2 := by
  decide

/-- Any character obtained by lowercasing then transliterating one input
character is a fixed point of both stages. -/
theorem normChar_stable (c : Char) :
    ∀ e ∈ replL (lowerChar c), lowerChar e = [e] ∧ replChar e = e := by
  intro e he
  rw [replL_eq_map, List.mem_map] at he
  obtain ⟨d, hd, rfl⟩ := he
  by_cases hg : c.toNat ≤ 64 ∨ (90 < c.toNat ∧ c.toNat ≤ 127)
  · have hc : lowerChar c = [c] := by unfold lowerChar; rw [if_pos hg]
    rw [hc] at hd; simp at hd; rw [hd]
    have h127 : c.toNat ≤ 127 := by rcases hg with h | ⟨_, h⟩ <;> omega
    have hr : replChar c = c := by unfold replChar; rw [if_pos h127]
    rw [hr]
    exact ⟨hc, hr⟩
  · cases hm : assocG lowerMap c with
    | some v =>
      have hc : lowerChar c = v := by unfold lowerChar; rw [if_neg hg, hm]
      rw [hc] at hd
      exact lower_out_stable (c, v) (assocG_mem lowerMap c v hm) d hd
    | none =>
      have hc : lowerChar c = [c] := by unfold lowerChar; rw [if_neg hg, hm]
      rw [hc] at hd; simp at hd; rw [hd]
      by_cases h127 : c.toNat ≤ 127
      · have hr : replChar c = c := by unfold replChar; rw [if_pos h127]
        rw [hr]
        exact ⟨hc, hr⟩
      · cases hrm : assocG replMap c with
        | some r =>
          have hr : replChar c = r := by unfold replChar; rw [if_neg h127, hrm]
          rw [hr]
          exact repl_out_stable (c, r) (assocG_mem replMap c r hrm)
        | none =>
          have hr : replChar c = c := by unfold replChar; rw [if_neg h127, hrm]
          rw [hr]
          exact ⟨hc, hr⟩

/-- Unfolding lemma for `collapse` at a non-space head, whatever the tail. -/
theorem collapse_cons_nonspace (c : Char) (cs : List Char) (hc : isSpaceC c = false) :
    collapse (c :: cs) = c :: collapse cs := by
  cases cs with
  | nil => simp [collapse, hc]
  | cons d ds => simp [collapse, hc]

/-- Characters of a collapsed string are a space or come from the input. -/
theorem collapse_mem : ∀ l : List Char, ∀ e ∈ collapse l, e = ' ' ∨ e ∈ l := by
  intro l
  induction l with
  | nil => intro e he; simp [collapse] at he
  | cons c cs ih =>
    intro e he
    cases hc : isSpaceC c with
    | false =>
      rw [collapse_cons_nonspace c cs hc] at he
      rcases List.mem_cons.mp he with h | h
      · exact Or.inr (by simp [h])
      · rcases ih e h with h2 | h2
        · exact Or.inl h2
        · exact Or.inr (List.mem_cons_of_mem _ h2)
    | true =>
      cases cs with
      | nil =>
        rw [show collapse [c] = [' '] from by simp [collapse, hc]] at he
        simp at he
        exact Or.inl he
      | cons d ds =>
        cases hd : isSpaceC d with
        | true =>
          rw [show collapse (c :: d :: ds) = collapse (d :: ds) from by
                simp [collapse, hc, hd]] at he
          rcases ih e he with h | h
          · exact Or.inl h
          · exact Or.inr (List.mem_cons_of_mem _ h)
        | false =>
          rw [show collapse (c :: d :: ds) = ' ' :: collapse (d :: ds) from by
                simp [collapse, hc, hd]] at he
          rcases List.mem_cons.mp he with h | h
          · exact Or.inl h
          · rcases ih e h with h2 | h2
            · exact Or.inl h2
            · exact Or.inr (List.mem_cons_of_mem _ h2)

theorem collapse_idem : ∀ l : List Char, collapse (collapse l) = collapse l := by
  intro l
  induction l with
  | nil => rfl
  | cons c cs ih =>
    cases hc : isSpaceC c with
    | false =>
      rw [collapse_cons_nonspace c cs hc, collapse_cons_nonspace c (collapse cs) hc, ih]
    | true =>
      cases cs with
      | nil =>
        rw [show collapse [c] = [' '] from by simp [collapse, hc]]
        decide
      | cons d ds =>
        cases hd : isSpaceC d with
        | true =>
          rw [show collapse (c :: d :: ds) = collapse (d :: ds) from by
                simp [collapse, hc, hd]]
          exact ih
        | false =>
          have e2 : collapse (d :: ds) = d :: collapse ds := collapse_cons_nonspace d ds hd
          have e1 : collapse (c :: d :: ds) = ' ' :: collapse (d :: ds) := by
            simp [collapse, hc, hd]
          rw [e2] at ih e1
          rw [e1]
          have hsp : isSpaceC ' ' = true := by decide
          have e3 : collapse (' ' :: d :: collapse ds) = ' ' :: collapse (d :: collapse ds) := by
            simp [collapse, hsp, hd]
          rw [e3, ih]

/-- Every character of a normalized string is a fixed point of lowercasing
and transliteration. -/
theorem stable_mem_norm (s : List Char) :
    ∀ e ∈ normalizeL s, lowerChar e = [e] ∧ replChar e = e := by
  intro e he
  rcases collapse_mem _ e he with h | h
  · subst h
    exact ⟨by decide, by decide⟩
  · rw [replL_eq_map, List.mem_map] at h
    obtain ⟨d, hd, rfl⟩ := h
    rw [mem_lowerL] at hd
    obtain ⟨c, _, hdc⟩ := hd
    exact normChar_stable c _ (by rw [replL_eq_map]; exact List.mem_map_of_mem _ hdc)

theorem normalizeL_idem (s : List Char) : normalizeL (normalizeL s) = normalizeL s := by
  have h := stable_mem_norm s
  have h1 : lowerL (normalizeL s) = normalizeL s := lowerL_fixed _ fun e he => (h e he).1
  have h2 : replL (normalizeL s) = normalizeL s := replL_fixed _ fun e he => (h e he).2
  show collapse (replL (lowerL (normalizeL s))) = normalizeL s
  rw [h1, h2]
  show collapse (collapse (replL (lowerL s))) = normalizeL s
  rw [collapse_idem]
  rfl

/-- A value found by the leftmost search is among all matches. -/
theorem searchPat_mem (f : List Char → Option Nat) :
    ∀ (s : List Char) (n : Nat), searchPat f s = some n → n ∈ allPat f s := by
  intro s
  induction s with
  | nil =>
    intro n h
    simp only [searchPat] at h
    simp [allPat, h]
  | cons c cs ih =>
    intro n h
    simp only [searchPat] at h
    cases hf : f (c :: cs) with
    | some m =>
      rw [hf] at h
      injection h with h
      subst h
      simp [allPat, hf]
    | none =>
      rw [hf] at h
      simp [allPat, hf, ih n h]

theorem foldlMax_mem : ∀ (vs : List Nat) (v : Nat), vs.foldl Nat.max v ∈ v :: vs := by
  intro vs
  induction vs with
  | nil => intro v; simp
  | cons w ws ih =>
    intro v
    have h := ih (Nat.max v w)
    have hstep : (w :: ws).foldl Nat.max v = ws.foldl Nat.max (Nat.max v w) := by
      simp [List.foldl_cons]
    rw [hstep]
    rcases List.mem_cons.mp h with h2 | h2
    · rw [h2]
      rcases Nat.le_total v w with hle | hle
      · have hm : Nat.max v w = w := Nat.max_eq_right hle
        rw [hm]; simp
      · have hm : Nat.max v w = v := Nat.max_eq_left hle
        rw [hm]; simp
    · simp [h2]

theorem foldlMax_le : ∀ (vs : List Nat) (v x : Nat), x ∈ v :: vs → x ≤ vs.foldl Nat.max v := by
  intro vs
  induction vs with
  | nil =>
    intro v x hx
    simp at hx
    simp [hx]
  | cons w ws ih =>
    intro v x hx
    have hstep : (w :: ws).foldl Nat.max v = ws.foldl Nat.max (Nat.max v w) := by
      simp [List.foldl_cons]
    rw [hstep]
    rcases List.mem_cons.mp hx with h | h
    · subst h
      have hx2 : x ≤ Nat.max x w := Nat.le_max_left x w
      exact le_trans hx2 (ih (Nat.max x w) (Nat.max x w) (List.mem_cons_self _ _))
    · rcases List.mem_cons.mp h with h2 | h2
      · subst h2
        have hx2 : x ≤ Nat.max v x := Nat.le_max_right v x
        exact le_trans hx2 (ih (Nat.max v x) (Nat.max v x) (List.mem_cons_self _ _))
      · exact ih (Nat.max v w) x (List.mem_cons_of_mem _ h2)

/-- The `max` of the per-pattern first matches, as computed by
`extractKanalMin` and `extractProbMin` over their search-result lists: when
it is `some v`, then `some v` is one of the search results and `v` bounds
every search result. -/
theorem maxFilterMap_spec (l : List (Option Nat)) (v : Nat)
    (hv : (match l.filterMap id with
           | [] => none
           | v0 :: vs => some (vs.foldl Nat.max v0)) = some v) :
    some v ∈ l ∧ ∀ m, some m ∈ l → m ≤ v := by
  cases hl : l.filterMap id with
  | nil =>
    rw [hl] at hv
    simp at hv
  | cons v0 vs =>
    rw [hl] at hv
    simp only [Option.some.injEq] at hv
    constructor
    · have hmemvals : v ∈ v0 :: vs := by
        rw [← hv]
        exact foldlMax_mem vs v0
      have hmem2 : v ∈ l.filterMap id := by
        rw [hl]
        exact hmemvals
      rw [List.mem_filterMap] at hmem2
      obtain ⟨a, ha, hav⟩ := hmem2
      have ha2 : a = some v := hav
      rw [← ha2]
      exact ha
    · intro m hm
      have hmem : m ∈ l.filterMap id := List.mem_filterMap.mpr ⟨some m, hm, rfl⟩
      rw [hl] at hmem
      rw [← hv]
      exact foldlMax_le vs v0 m hmem

/-- If the requested tests contain a Faktör entry and the device lacks
Faktör, the loop of `evaluate_testler` returns the Faktör verdict no matter
what is in the accumulated `missing` list. -/
theorem testlerGo_faktor (rules : Rules) (d : DeviceKoag)
    (hd : (device_has_test d "Faktor" || device_has_test d "Faktör") = false) :
    ∀ (tests : List (String × Bool)) (missing : List String),
      (∃ p ∈ tests, (p.1 = "Faktör" ∨ p.1 = "Faktor") ∧ p.2 = true) →
      testlerGo rules d tests missing = faktorSonuc rules.faktor_durumu := by
  intro tests
  induction tests with
  | nil => intro missing h; simp at h
  | cons p rest ih =>
    intro missing h
    obtain ⟨name, needed⟩ := p
    by_cases hn : needed = false
    · subst hn
      rw [show testlerGo rules d ((name, false) :: rest) missing
            = testlerGo rules d rest missing from by simp [testlerGo]]
      apply ih
      rcases h with ⟨q, hq, hqf, hqt⟩
      rcases List.mem_cons.mp hq with h2 | h2
      · exfalso
        rw [h2] at hqt
        simp at hqt
      · exact ⟨q, h2, hqf, hqt⟩
    · have hn2 : needed = true := by
        cases needed
        · exact absurd rfl hn
        · rfl
      subst hn2
      by_cases hf : name = "Faktör" ∨ name = "Faktor"
      · rw [show testlerGo rules d ((name, true) :: rest) missing
              = faktorSonuc rules.faktor_durumu from by
            simp only [testlerGo]
            rw [if_neg (by simp), if_pos hf, if_pos hd]]
      · rw [show testlerGo rules d ((name, true) :: rest) missing
              = (if device_has_test d name = false then
                   testlerGo rules d rest (missing ++ [name])
                 else testlerGo rules d rest missing) from by
            simp only [testlerGo]
            rw [if_neg (by simp), if_neg hf]]
        have hrest : ∃ p ∈ rest, (p.1 = "Faktör" ∨ p.1 = "Faktor") ∧ p.2 = true := by
          rcases h with ⟨q, hq, hqf, hqt⟩
          rcases List.mem_cons.mp hq with h2 | h2
          · exfalso
            rw [h2] at hqf
            simp at hqf
            exact hf hqf
          · exact ⟨q, h2, hqf, hqt⟩
        by_cases hdt : device_has_test d name = false
        · rw [if_pos hdt]
          exact ih _ hrest
        · rw [if_neg hdt]
          exact ih _ hrest

/-- Unfolding `evaluate_testler` when a non-empty test dict was extracted. -/
theorem evaluate_testler_some (rules : Rules) (d : DeviceKoag)
    (tests : List (String × Bool)) (h : rules.istenen_testler = some tests)
    (hne : tests ≠ []) :
    evaluate_testler rules d = testlerGo rules d tests [] := by
  unfold evaluate_testler
  rw [h]
  show (if tests = [] then
          (⟨"Testler", .bilgiYok, "Şartnamede istenen testler yakalanamadı.", false⟩ : Sonuc)
        else testlerGo rules d tests []) = testlerGo rules d tests []
  rw [if_neg hne]

/-- The Faktör verdict carries the label "Faktör Testleri" whatever the
`faktor_durumu` value. -/
theorem faktorSonuc_madde : ∀ fd : Option FaktorDurumu,
    (faktorSonuc fd).madde = "Faktör Testleri" := by
  intro fd
  cases fd with
  | none => rfl
  | some x => cases x <;> rfl

-- ==========================================================================
-- claims
-- ==========================================================================

def rulesC1 : Rules := ⟨some 0, none, none, none, none, none⟩

def devC1 : DeviceKoag := ⟨some 5, none, false, false, []⟩

/-- Claim C1, counterexample: a requirement record with channel minimum
N = 0 and a device with present channel count D = 5 has D ≥ N, yet the
channel clause is Unknown ("Bilgi Yok"), not Compliant, because
`if not req` in `evaluate_kanal` treats the value 0 like a missing key. -/
theorem C1_cex :
    rulesC1.kanal_min = some 0 ∧ devC1.kanal_toplam = some 5 ∧
    ((0 : Nat) : Int) ≤ (5 : Int) ∧
    (evaluate_kanal rulesC1 devC1).durum = Durum.bilgiYok ∧
    Durum.bilgiYok ≠ Durum.uygun := by
  refine ⟨rfl, rfl, by decide, by decide, by decide⟩

/-- Claim C1 (amended): for every requirement record containing a channel
minimum N ≥ 1 and every device record with a present channel count D, the
channel clause is Compliant iff D ≥ N (boundary D = N included) and
NonCompliant iff D < N. -/
theorem C1_thm (rules : Rules) (d : DeviceKoag) (N : Nat) (D : Int)
    (hr : rules.kanal_min = some N) (hd : d.kanal_toplam = some D) (hN : 1 ≤ N) :
    ((evaluate_kanal rules d).durum = Durum.uygun ↔ (N : Int) ≤ D) ∧
    ((evaluate_kanal rules d).durum = Durum.uygunDegil ↔ D < (N : Int)) := by
  have hN0 : N ≠ 0 := by omega
  by_cases hcmp : (N : Int) ≤ D
  · have hv : (evaluate_kanal rules d).durum = Durum.uygun := by
      simp [evaluate_kanal, hr, hd, hN0, hcmp]
    refine ⟨⟨fun _ => hcmp, fun _ => hv⟩, ⟨fun h => ?_, fun h => ?_⟩⟩
    · rw [hv] at h
      exact absurd h (by decide)
    · exact absurd h (by omega)
  · have hv : (evaluate_kanal rules d).durum = Durum.uygunDegil := by
      simp [evaluate_kanal, hr, hd, hN0, hcmp]
    have hlt : D < (N : Int) := by omega
    refine ⟨⟨fun h => ?_, fun h => absurd h hcmp⟩, ⟨fun _ => hlt, fun _ => hv⟩⟩
    · rw [hv] at h
      exact absurd h (by decide)

def rulesC1w : Rules := ⟨some 4, none, none, none, none, none⟩

def devC1w : DeviceKoag := ⟨some 4, none, false, false, []⟩

/-- Claim C1, witness: minimum 4 against a device with exactly 4 channels. -/
theorem C1_witness :
    ((evaluate_kanal rulesC1w devC1w).durum = Durum.uygun ↔ ((4 : Nat) : Int) ≤ (4 : Int)) ∧
    ((evaluate_kanal rulesC1w devC1w).durum = Durum.uygunDegil ↔ (4 : Int) < ((4 : Nat) : Int)) :=
  C1_thm rulesC1w devC1w 4 4 rfl rfl (by decide)

/-- Claim C2: the overall verdict is NonCompliant if any clause is
NonCompliant; else the "compliant with amendment" state if any clause is
PartiallyCompliant; else Compliant when every clause is Compliant or
Unknown (Unknown never blocks Compliant); the NeedsReview state never
arises from clause verdicts. -/
theorem C2_thm (rs : List Sonuc) :
    ((∃ r ∈ rs, r.durum = Durum.uygunDegil) →
       (aggregate_overall rs).durum = ODurum.uygunDegil) ∧
    ((¬ ∃ r ∈ rs, r.durum = Durum.uygunDegil) → (∃ r ∈ rs, r.durum = Durum.zeyil) →
       (aggregate_overall rs).durum = ODurum.zeyilIleUygun) ∧
    ((∀ r ∈ rs, r.durum = Durum.uygun ∨ r.durum = Durum.bilgiYok) →
       (aggregate_overall rs).durum = ODurum.uygun) ∧
    (aggregate_overall rs).durum ≠ ODurum.incelemeGerekli := by
  by_cases h1 : ∃ r ∈ rs, r.durum = Durum.uygunDegil
  · refine ⟨fun _ => by simp [aggregate_overall, h1], fun h => absurd h1 h, fun hall => ?_,
            by simp [aggregate_overall, h1]⟩
    obtain ⟨r, hr, hrd⟩ := h1
    rcases hall r hr with h2 | h2 <;> simp [hrd] at h2
  · by_cases h2 : ∃ r ∈ rs, r.durum = Durum.zeyil
    · refine ⟨fun h => absurd h h1, fun _ _ => by simp [aggregate_overall, h1, h2],
              fun hall => ?_, by simp [aggregate_overall, h1, h2]⟩
      obtain ⟨r, hr, hrd⟩ := h2
      rcases hall r hr with h3 | h3 <;> simp [hrd] at h3
    · have hall : ∀ r ∈ rs, r.durum = Durum.uygun ∨ r.durum = Durum.bilgiYok := by
        intro r hr
        cases hdr : r.durum
        · exact Or.inl rfl
        · exact absurd ⟨r, hr, hdr⟩ h2
        · exact absurd ⟨r, hr, hdr⟩ h1
        · exact Or.inr rfl
      refine ⟨fun h => absurd h h1, fun _ h => absurd h h2, fun _ => ?_, ?_⟩
      · unfold aggregate_overall
        rw [if_neg h1, if_neg h2, if_pos hall]
      · unfold aggregate_overall
        rw [if_neg h1, if_neg h2, if_pos hall]
        decide

def sUD : Sonuc := ⟨"A", Durum.uygunDegil, "", false⟩

def sZ : Sonuc := ⟨"B", Durum.zeyil, "", true⟩

def sU : Sonuc := ⟨"C", Durum.uygun, "", false⟩

def sB : Sonuc := ⟨"D", Durum.bilgiYok, "", false⟩

/-- Claim C2, witness: all three precedence levels on concrete lists. -/
theorem C2_witness :
    (aggregate_overall [sU, sZ, sUD]).durum = ODurum.uygunDegil ∧
    (aggregate_overall [sU, sZ, sB]).durum = ODurum.zeyilIleUygun ∧
    (aggregate_overall [sU, sB]).durum = ODurum.uygun ∧
    (aggregate_overall []).durum ≠ ODurum.incelemeGerekli :=
  ⟨(C2_thm [sU, sZ, sUD]).1 (by decide),
   (C2_thm [sU, sZ, sB]).2.1 (by decide) (by decide),
   (C2_thm [sU, sB]).2.2.1 (by decide),
   (C2_thm []).2.2.2⟩

def rulesC3 : Rules := ⟨some 4, some 3, none, none, none, none⟩

def devC3 : DeviceKoag := ⟨none, none, false, false, []⟩

/-- Claim C3, counterexample: channel minimum 4 with the device channel
field absent/null yields NonCompliant, not the Unknown the claim
requires — `evaluate_kanal` coerces the missing field to 0. -/
theorem C3_cex :
    rulesC3.kanal_min = some 4 ∧ devC3.kanal_toplam = none ∧
    (evaluate_kanal rulesC3 devC3).durum = Durum.uygunDegil ∧
    Durum.uygunDegil ≠ Durum.bilgiYok := by
  refine ⟨rfl, rfl, by decide, by decide⟩

/-- Claim C3 (amended): when the requirement record contains a positive
channel (resp. probe) minimum and the corresponding device field is absent
or null, the clause evaluates to NonCompliant — the missing device value
is treated as 0, it is never reported as Unknown. -/
theorem C3_thm (rules : Rules) (d : DeviceKoag) (N M : Nat) :
    (rules.kanal_min = some N → 1 ≤ N → d.kanal_toplam = none →
       (evaluate_kanal rules d).durum = Durum.uygunDegil) ∧
    (rules.prob_min = some M → 1 ≤ M → d.prob_sayisi = none →
       (evaluate_prob rules d).durum = Durum.uygunDegil) := by
  constructor
  · intro hr hN hd
    have hN0 : N ≠ 0 := by omega
    have hcmp : ¬ ((N : Int) ≤ (0 : Int)) := by omega
    simp [evaluate_kanal, hr, hd, hN0, hcmp]
  · intro hr hM hd
    have hM0 : M ≠ 0 := by omega
    have hcmp : ¬ ((M : Int) ≤ (0 : Int)) := by omega
    simp [evaluate_prob, hr, hd, hM0, hcmp]

/-- Claim C3, witness: both clauses at concrete inputs. -/
theorem C3_witness :
    (evaluate_kanal rulesC3 devC3).durum = Durum.uygunDegil ∧
    (evaluate_prob rulesC3 devC3).durum = Durum.uygunDegil :=
  ⟨(C3_thm rulesC3 devC3 4 3).1 rfl (by decide) rfl,
   (C3_thm rulesC3 devC3 4 3).2 rfl (by decide) rfl⟩

def c4text : List Char :=
  "en az 2 kanal ve en az 5 kanal ve en az 2 prob ve en az 5 prob".data

/-- Claim C4, counterexample: the text contains channel matches with
values 2 and 5 and probe matches with values 2 and 5, so the maximum of
all matched values is 5 in each category, but the extracted `kanal_min`
and `prob_min` are both 2: `re.search` keeps only the first match of each
pattern. -/
theorem C4_cex :
    (extract_rules_from_text c4text).kanal_min = some 2 ∧
    (5 : Nat) ∈ allKanalMatches (normalizeL c4text) ∧
    (extract_rules_from_text c4text).prob_min = some 2 ∧
    (5 : Nat) ∈ allProbMatches (normalizeL c4text) ∧
    (2 : Nat) ≠ 5 := by
  refine ⟨by decide, by decide, by decide, by decide, by decide⟩

/-- Claim C4 (amended): for each numeric requirement category (channel
minimum and probe minimum) the extracted value is the maximum over the
per-pattern first (leftmost) matches — one candidate per pattern, not over
all matches; in particular it is itself one of the matched values and is
at least each pattern's first match. -/
theorem C4_thm (raw : List Char) (v w : Nat) :
    ((extract_rules_from_text raw).kanal_min = some v →
       v ∈ allKanalMatches (normalizeL raw) ∧
       (∀ m, searchPat kanalPat1At (normalizeL raw) = some m → m ≤ v) ∧
       (∀ m, searchPat kanalPat2At (normalizeL raw) = some m → m ≤ v) ∧
       (∀ m, searchPat kanalPat3At (normalizeL raw) = some m → m ≤ v)) ∧
    ((extract_rules_from_text raw).prob_min = some w →
       w ∈ allProbMatches (normalizeL raw) ∧
       (∀ m, searchPat probPat1At (normalizeL raw) = some m → m ≤ w) ∧
       (∀ m, searchPat probPat2At (normalizeL raw) = some m → m ≤ w)) := by
  set t := normalizeL raw with ht
  constructor
  · intro hv
    have hv2 : extractKanalMin t = some v := hv
    unfold extractKanalMin at hv2
    obtain ⟨hmem, hle⟩ := maxFilterMap_spec _ v hv2
    refine ⟨?_, fun m hm => hle m (by simp [hm]), fun m hm => hle m (by simp [hm]),
            fun m hm => hle m (by simp [hm])⟩
    unfold allKanalMatches
    rw [List.mem_append, List.mem_append]
    simp only [List.mem_cons, List.not_mem_nil, or_false] at hmem
    rcases hmem with h | h | h
    · exact Or.inl (Or.inl (searchPat_mem _ t v h.symm))
    · exact Or.inl (Or.inr (searchPat_mem _ t v h.symm))
    · exact Or.inr (searchPat_mem _ t v h.symm)
  · intro hw
    have hw2 : extractProbMin t = some w := hw
    unfold extractProbMin at hw2
    obtain ⟨hmem, hle⟩ := maxFilterMap_spec _ w hw2
    refine ⟨?_, fun m hm => hle m (by simp [hm]), fun m hm => hle m (by simp [hm])⟩
    unfold allProbMatches
    rw [List.mem_append]
    simp only [List.mem_cons, List.not_mem_nil, or_false] at hmem
    rcases hmem with h | h
    · exact Or.inl (searchPat_mem _ t w h.symm)
    · exact Or.inr (searchPat_mem _ t w h.symm)

/-- Claim C4, witness: the amended statement, both categories, at the
counterexample text. -/
theorem C4_witness :
    ((2 : Nat) ∈ allKanalMatches (normalizeL c4text) ∧
     (∀ m, searchPat kanalPat1At (normalizeL c4text) = some m → m ≤ 2) ∧
     (∀ m, searchPat kanalPat2At (normalizeL c4text) = some m → m ≤ 2) ∧
     (∀ m, searchPat kanalPat3At (normalizeL c4text) = some m → m ≤ 2)) ∧
    ((2 : Nat) ∈ allProbMatches (normalizeL c4text) ∧
     (∀ m, searchPat probPat1At (normalizeL c4text) = some m → m ≤ 2) ∧
     (∀ m, searchPat probPat2At (normalizeL c4text) = some m → m ≤ 2)) :=
  ⟨(C4_thm c4text 2 2).1 (by decide), (C4_thm c4text 2 2).2 (by decide)⟩

/-- Claim C5: a requirement with reading method mechanical-clot (and not
magnetic) is PartiallyCompliant on a device with magnetic capability and
NonCompliant on a device without it. -/
theorem C5_thm (rules : Rules) (d : DeviceKoag) (ms : List String)
    (hm : rules.okuma_yontemi = some ms) (hmek : "mekanik_clot" ∈ ms)
    (hnm : "manyetik" ∉ ms) :
    (deviceMethodsMany d = true → (evaluate_okuma_yontemi rules d).durum = Durum.zeyil) ∧
    (deviceMethodsMany d = false → (evaluate_okuma_yontemi rules d).durum = Durum.uygunDegil) := by
  have hne : ms ≠ [] := List.ne_nil_of_mem hmek
  constructor
  · intro hdev
    simp [evaluate_okuma_yontemi, hm, hne, hnm, hmek, hdev]
  · intro hdev
    simp [evaluate_okuma_yontemi, hm, hne, hnm, hmek, hdev]

def rulesC5 : Rules := ⟨none, none, none, some ["mekanik_clot"], none, none⟩

def devC5y : DeviceKoag := ⟨none, none, false, false, [("PT", TVal.s "manyetik")]⟩

def devC5n : DeviceKoag := ⟨none, none, false, false, [("PT", TVal.b true)]⟩

/-- Claim C5, witness: both branches at concrete devices. -/
theorem C5_witness :
    (evaluate_okuma_yontemi rulesC5 devC5y).durum = Durum.zeyil ∧
    (evaluate_okuma_yontemi rulesC5 devC5n).durum = Durum.uygunDegil :=
  ⟨(C5_thm rulesC5 devC5y ["mekanik_clot"] rfl (by decide) (by decide)).1 (by decide),
   (C5_thm rulesC5 devC5n ["mekanik_clot"] rfl (by decide) (by decide)).2 (by decide)⟩

def c6text : List Char :=
  "istenen test faktor ".data ++ List.replicate 1580 'x' ++ " referans laboratuvar".data

def devC6 : DeviceKoag := ⟨none, none, false, false, []⟩

/-- Claim C6, counterexample: a document requesting the Factor test whose
"referans laboratuvar" phrase lies beyond the 1600-character test-block
window.  The phrase is present in the document, yet `faktor_durumu` is
"zorunlu" and the Factor clause on a device without Factor support is
NonCompliant, contradicting the claim. -/
theorem C6_cex :
    containsL "referans laboratuvar".data (normalizeL c6text) = true ∧
    (extract_rules_from_text c6text).faktor_durumu = some FaktorDurumu.zorunlu ∧
    (evaluate_testler (extract_rules_from_text c6text) devC6).durum = Durum.uygunDegil := by
  refine ⟨by decide, by decide, by decide⟩

/-- Claim C6 (amended): for every document requesting the Factor test, if
an external/reference-laboratory phrase occurs within the scanned test
region (the located test block when found, else the whole text),
`faktor_durumu` is optional-external-lab and a device lacking Factor
yields a PartiallyCompliant clause; if no such phrase occurs in the
scanned region, `faktor_durumu` is mandatory and the clause is
NonCompliant. -/
theorem C6_thm (raw : List Char) (d : DeviceKoag)
    (hf : faktorCond (scanRegion (normalizeL raw)) = true)
    (hd1 : device_has_test d "Faktor" = false)
    (hd2 : device_has_test d "Faktör" = false) :
    (disLabCond (scanRegion (normalizeL raw)) = true →
       (extract_rules_from_text raw).faktor_durumu = some FaktorDurumu.opsiyonel_dis_lab ∧
       (evaluate_testler (extract_rules_from_text raw) d).durum = Durum.zeyil) ∧
    (disLabCond (scanRegion (normalizeL raw)) = false →
       (extract_rules_from_text raw).faktor_durumu = some FaktorDurumu.zorunlu ∧
       (evaluate_testler (extract_rules_from_text raw) d).durum = Durum.uygunDegil) := by
  set scan := scanRegion (normalizeL raw) with hscan
  have hdd : (device_has_test d "Faktor" || device_has_test d "Faktör") = false := by
    rw [hd1, hd2]
    rfl
  have hfd : (extract_rules_from_text raw).faktor_durumu = extractFaktorDurumu scan := rfl
  have hit : (extract_rules_from_text raw).istenen_testler = extractTestList scan := rfl
  have hmemF : ("Faktör", true) ∈ testListOf scan := by
    unfold testListOf
    rw [hf]
    simp
  have hnonempty : testListOf scan ≠ [] := List.ne_nil_of_mem hmemF
  have hsome : (extract_rules_from_text raw).istenen_testler = some (testListOf scan) := by
    rw [hit]
    unfold extractTestList
    rw [if_neg hnonempty]
  have heval : evaluate_testler (extract_rules_from_text raw) d
      = faktorSonuc (extract_rules_from_text raw).faktor_durumu := by
    rw [evaluate_testler_some _ d _ hsome hnonempty]
    exact testlerGo_faktor _ d hdd _ [] ⟨("Faktör", true), hmemF, Or.inl rfl, rfl⟩
  constructor
  · intro hdis
    have h1 : (extract_rules_from_text raw).faktor_durumu
        = some FaktorDurumu.opsiyonel_dis_lab := by
      rw [hfd]
      simp [extractFaktorDurumu, hf, hdis]
    refine ⟨h1, ?_⟩
    rw [heval, h1]
    rfl
  · intro hdis
    have h1 : (extract_rules_from_text raw).faktor_durumu = some FaktorDurumu.zorunlu := by
      rw [hfd]
      simp [extractFaktorDurumu, hf, hdis]
    refine ⟨h1, ?_⟩
    rw [heval, h1]
    rfl

/-- Claim C6, witness: a short document with the phrase inside the scanned
region (no test-block header, so the whole text is scanned). -/
theorem C6_witness :
    (extract_rules_from_text "faktor referans lab".data).faktor_durumu
      = some FaktorDurumu.opsiyonel_dis_lab ∧
    (evaluate_testler (extract_rules_from_text "faktor referans lab".data) devC6).durum
      = Durum.zeyil :=
  (C6_thm "faktor referans lab".data devC6 (by decide) rfl rfl).1 (by decide)

/-- Claim C7, counterexample: a text mentioning barcode with no specific
qualifier extracts `barkod = {"numune": true}` — the unspecific
requirement is coerced to the sample sub-key, there is no `general` key. -/
theorem C7_cex :
    (extract_rules_from_text "cihazda barkod olmali".data).barkod
      = some [("numune", true)] ∧
    (∀ p ∈ [(("numune" : String), true)], p.1 ≠ "general") := by
  refine ⟨by decide, by decide⟩

/-- Claim C7 (amended): when a document mentions barcode without any
specific sample/reagent keyword, the extracted barcode sub-mapping is
exactly `{"numune" (sample): true}`. -/
theorem C7_thm (raw : List Char)
    (h1 : numuneCond (normalizeL raw) = false)
    (h2 : reaktifCond (normalizeL raw) = false)
    (h3 : genelCond (normalizeL raw) = true) :
    (extract_rules_from_text raw).barkod = some [("numune", true)] := by
  have hb : (extract_rules_from_text raw).barkod = extractBarkod (normalizeL raw) := rfl
  rw [hb]
  simp [extractBarkod, h1, h2, h3]

/-- Claim C7, witness. -/
theorem C7_witness :
    (extract_rules_from_text "cihazda barkod olmali".data).barkod
      = some [("numune", true)] :=
  C7_thm "cihazda barkod olmali".data (by decide) (by decide) (by decide)

/-- Claim C8: a document containing "reaktif barkod" against a device
without reagent barcode (any sample requirement being satisfied) yields a
PartiallyCompliant "Barkod (Reaktif)" clause whose amendment text is
non-empty and mentions "reaktif"; and the amendment collector produces no
text for lists without a PartiallyCompliant verdict. -/
theorem C8_thm (raw : List Char) (d : DeviceKoag) (lbl : String)
    (hr : reaktifCond (normalizeL raw) = true)
    (hdr : d.barkod_reaktif = false)
    (hnum : numuneCond (normalizeL raw) = true → d.barkod_numune = true) :
    (barkod_sonuc (extract_rules_from_text raw) d).durum = Durum.zeyil ∧
    (barkod_sonuc (extract_rules_from_text raw) d).madde = "Barkod (Reaktif)" ∧
    build_zeyil_text (barkod_sonuc (extract_rules_from_text raw) d)
        (extract_rules_from_text raw) lbl d ≠ "" ∧
    containsS "reaktif" (build_zeyil_text (barkod_sonuc (extract_rules_from_text raw) d)
        (extract_rules_from_text raw) lbl d) = true ∧
    (∀ rs : List Sonuc, (∀ x ∈ rs, x.durum ≠ Durum.zeyil) →
       zeyil_texts rs (extract_rules_from_text raw) lbl d = []) := by
  have hbk : (extract_rules_from_text raw).barkod = extractBarkod (normalizeL raw) := rfl
  set t := normalizeL raw with ht
  have hs : barkod_sonuc (extract_rules_from_text raw) d =
      ⟨"Barkod (Reaktif)", Durum.zeyil,
       "Reaktif barkod okuyucu yok / eşdeğer yöntem gerekir.", true⟩ := by
    cases hn : numuneCond t with
    | true =>
      have hb : extractBarkod t = some [("numune", true), ("reaktif", true)] := by
        simp [extractBarkod, hn, hr]
      unfold barkod_sonuc
      rw [hbk, hb]
      show evaluate_barkod [("numune", true), ("reaktif", true)] d = _
      have hdn : d.barkod_numune = true := hnum hn
      have e1 : assocG [("numune", true), ("reaktif", true)] "numune" = some true := rfl
      have e2 : assocG [("numune", true), ("reaktif", true)] "reaktif" = some true := rfl
      simp [evaluate_barkod, device_get_barkod, e1, e2, hdn, hdr]
    | false =>
      have hb : extractBarkod t = some [("reaktif", true)] := by
        simp [extractBarkod, hn, hr]
      unfold barkod_sonuc
      rw [hbk, hb]
      show evaluate_barkod [("reaktif", true)] d = _
      have e1 : assocG [("reaktif", true)] "numune" = none := rfl
      have e2 : assocG [("reaktif", true)] "reaktif" = some true := rfl
      simp [evaluate_barkod, device_get_barkod, e1, e2, hdr]
  have hbz : build_zeyil_text
      (⟨"Barkod (Reaktif)", Durum.zeyil,
        "Reaktif barkod okuyucu yok / eşdeğer yöntem gerekir.", true⟩ : Sonuc)
      (extract_rules_from_text raw) lbl d =
      "Zeyil Önerisi (Reaktif Barkod):\n" ++
      "Cihazda reaktif/kit tanımlama işlemleri, cihazın dahili/harici barkod okuyucusu ile ve/veya " ++
      "kullanıcının manuel reaktif tanımlaması yapabilmesine olanak sağlayacak şekilde gerçekleştirilebilir. " ++
      "Reaktiflerin cihazda güvenli şekilde tanımlanması ve izlenebilirliği sağlanacaktır." := rfl
  refine ⟨by rw [hs], by rw [hs], ?_, ?_, ?_⟩
  · rw [hs, hbz]
    decide
  · rw [hs, hbz]
    decide
  · intro rs hrs
    unfold zeyil_texts
    have hfil : rs.filter (fun r => decide (r.durum = Durum.zeyil)) = [] := by
      rw [List.filter_eq_nil_iff]
      intro a ha
      simp [hrs a ha]
    rw [hfil]
    rfl

def devC8 : DeviceKoag := ⟨none, none, false, false, []⟩

/-- Claim C8, witness: "reaktif barkod" against a device without reagent
barcode; and the collector on a fully-Compliant list. -/
theorem C8_witness :
    (barkod_sonuc (extract_rules_from_text "reaktif barkod".data) devC8).durum = Durum.zeyil ∧
    zeyil_texts [⟨"Barkod", Durum.uygun, "", false⟩]
        (extract_rules_from_text "reaktif barkod".data) "X" devC8 = [] :=
  ⟨(C8_thm "reaktif barkod".data devC8 "X" (by decide) rfl
      (fun h => absurd h (by decide))).1,
   (C8_thm "reaktif barkod".data devC8 "X" (by decide) rfl
      (fun h => absurd h (by decide))).2.2.2.2 [⟨"Barkod", Durum.uygun, "", false⟩]
      (by decide)⟩

/-- Claim C9: the text normalizer is idempotent — normalizing an already
normalized string returns it unchanged. -/
theorem C9_thm (s : String) : normalize_tr (normalize_tr s) = normalize_tr s := by
  show String.mk (normalizeL (normalizeL s.data)) = String.mk (normalizeL s.data)
  rw [normalizeL_idem]

/-- Claim C10: when the requested tests contain Factor (requested true),
the device lacks Factor support, and some other requested test is also
unsupported, `evaluate_testler` returns the Faktör verdict alone — a fixed
record whose label is "Faktör Testleri" — so the other unsupported tests
are never reported. -/
theorem C10_thm (rules : Rules) (d : DeviceKoag) (tests : List (String × Bool))
    (ht : rules.istenen_testler = some tests)
    (hfac : ∃ p ∈ tests, (p.1 = "Faktör" ∨ p.1 = "Faktor") ∧ p.2 = true)
    (hdev : (device_has_test d "Faktor" || device_has_test d "Faktör") = false)
    (_hother : ∃ p ∈ tests, p.2 = true ∧ p.1 ≠ "Faktör" ∧ p.1 ≠ "Faktor" ∧
                device_has_test d p.1 = false) :
    evaluate_testler rules d = faktorSonuc rules.faktor_durumu ∧
    (evaluate_testler rules d).madde = "Faktör Testleri" := by
  have hne : tests ≠ [] := by
    obtain ⟨p, hp, _⟩ := hfac
    exact List.ne_nil_of_mem hp
  have heq : evaluate_testler rules d = faktorSonuc rules.faktor_durumu := by
    rw [evaluate_testler_some rules d tests ht hne]
    exact testlerGo_faktor rules d hdev tests [] hfac
  exact ⟨heq, by rw [heq]; exact faktorSonuc_madde _⟩

def rulesC10 : Rules := ⟨none, none, none, none, some [("PT", true), ("Faktör", true)], none⟩

def devC10 : DeviceKoag := ⟨none, none, false, false, []⟩

/-- Claim C10, witness: PT and Faktör requested, the device supports
neither; the result is the mandatory Faktör verdict and PT is not
reported. -/
theorem C10_witness :
    evaluate_testler rulesC10 devC10 = faktorSonuc rulesC10.faktor_durumu ∧
    (evaluate_testler rulesC10 devC10).madde = "Faktör Testleri" :=
  C10_thm rulesC10 devC10 [("PT", true), ("Faktör", true)] rfl (by decide) (by decide)
    (by decide)

end Ihale
